import Mathlib

/-
Shallow embedding of the PyTransit `MandelAgol` transit-model wrapper
(`src/mandelagol.py`).  The Python class is a thin layer over Fortran
routines (`mandelagol_f`, `orbits_f`) and a `TransitModel` base class that
are not part of the repository snapshot; those parts are modelled from the
specification, as noted on each definition.  Flux values are represented
over ℚ so every definition is executable; the transcendental interiors of
the analytic formulas (arccos terms, elliptic integrals) are abstracted
into an `MACore` record of functions, since only their regime structure is
pinned down by the spec.
-/

namespace PyTransit

/-- Interpolation table state: the three component grids `ed`, `le`, `ld`
and the knot coordinate arrays `kt`, `zt`, exactly the five values unpacked
from `ma.calculate_interpolation_tables` in `MandelAgol.__init__`. -/
structure InterpTables where
  ed : List (List ℚ)
  le : List (List ℚ)
  ld : List (List ℚ)
  kt : List ℚ
  zt : List ℚ
deriving DecidableEq

/-- Abstract numeric core: the transcendental pieces of the analytic
Mandel-Agol formulas and of the orbit solver.  These live in the Fortran
modules `mandelagol_f` / `orbits_f`, which are absent from the snapshot;
the embedding is parameterised over them and proves only properties that
hold for every core, per the regime structure the spec fixes. -/
structure MACore where
  uniInterior : ℚ → ℚ → ℚ
  quadInterior : ℚ → ℚ → ℚ → ℚ → ℚ
  edVal : ℚ → ℚ → ℚ
  leVal : ℚ → ℚ → ℚ
  ldVal : ℚ → ℚ → ℚ
  bilerpVal : InterpTables → ℚ → ℚ → ℚ → ℚ → ℚ
  zOf : ℚ → ℚ → ℚ → ℚ → ℚ → ℚ → ℚ → ℚ

/-- Trivial concrete core used to instantiate closed (witness) statements. -/
def trivCore : MACore :=
  { uniInterior := fun _ _ => 0
    quadInterior := fun _ _ _ _ => 0
    edVal := fun _ _ => 0
    leVal := fun _ _ => 0
    ldVal := fun _ _ => 0
    bilerpVal := fun _ _ _ _ _ => 0
    zOf := fun _ _ _ _ _ _ _ => 0 }

/-- Uniformly spaced knots.  Modelled from the spec: the table builder
chooses `n` knot values spanning the given interval (§4.3). -/
def linspace (a b : ℚ) (n : ℕ) : List ℚ :=
  (List.range n).map (fun (i : ℕ) =>
    a + (b - a) * (i : ℚ) / ((n - 1 : ℕ) : ℚ))

/-- Modelled from the spec: `ma.calculate_interpolation_tables` (missing
Fortran).  Per §4.3 it builds `nk` knots of `k` over `[kmin,kmax]`, `nz`
knots of `z` over `[0, 1+kmax]`, and fills the `ed`, `le`, `ld` grids with
exact analytic component values at every knot pair; the node values
themselves come from the abstract core.  The `oversample` argument is
recorded but its effect on node fidelity is not observable here. -/
def calculate_interpolation_tables (core : MACore) (kmin kmax : ℚ)
    (nk nz : ℕ) (oversample : ℕ) : InterpTables :=
  let kt := linspace kmin kmax nk
  let zt := linspace 0 (1 + kmax) nz
  { ed := kt.map (fun kv => zt.map (fun zv => core.edVal kv zv))
    le := kt.map (fun kv => zt.map (fun zv => core.leVal kv zv))
    ld := kt.map (fun kv => zt.map (fun zv => core.ldVal kv zv))
    kt := kt
    zt := zt }

/-- Empty table value, used only as the default for an absent table. -/
def emptyTables : InterpTables := ⟨[], [], [], [], []⟩

/-- Which bound evaluator `__init__` stored into `self._eval`. -/
inductive EvalKind where
  | nolerpUniform
  | nolerpQuadratic
  | lerpQuadratic
deriving DecidableEq

/-- Construction-time failures of `MandelAgol.__init__`:
`notImplementedError` is the explicit `NotImplementedError` raised for an
unsupported limb-darkening configuration; `attributeError` is the
`AttributeError` raised at `self._eval = self._eval_lerp` when `lerp` is
requested but `self._eval_lerp` was never assigned (`nldc = 0`). -/
inductive InitError where
  | notImplementedError
  | attributeError
deriving DecidableEq

/-- Evaluation-time failure: numpy `ValueError` from an impossible
`reshape` in `MandelAgol.evaluate`. -/
inductive EvalError where
  | valueError
deriving DecidableEq

/-- State of a constructed `MandelAgol` instance.  The table attributes
(`tables`, `klims`, `nk`, `nz`) are populated only on the interpolating
path, mirroring `__init__`; `ss`, `nss`, `exptime` come from the
`TransitModel` base class (missing from the snapshot), modelled from the
spec: `nss ≥ 1` with `nss ≤ 1` meaning no supersampling (§3, §4.5). -/
structure Model where
  nldc : ℕ
  lerp : Bool
  evalKind : EvalKind
  nthr : ℕ
  ss : Bool
  nss : ℕ
  exptime : ℚ
  tables : Option InterpTables
  klims : ℚ × ℚ
  nk : ℕ
  nz : ℕ
deriving DecidableEq

/-- Embedding of `MandelAgol.__init__`.  The `nldc` check, table build and
evaluator selection mirror lines 54-71 of `mandelagol.py`; selecting
`self._eval_lerp` when it was never assigned (`lerp` with `nldc = 0`) is
the `AttributeError` case. -/
def initModel (core : MACore) (nldc : ℕ) (nthr : ℕ) (lerp : Bool)
    (supersampling : ℕ) (exptime : ℚ) (klims : ℚ × ℚ) (nk nz : ℕ) :
    Except InitError Model :=
  if nldc = 0 ∨ nldc = 2 then
    let tables := if lerp then
        some (calculate_interpolation_tables core klims.1 klims.2 nk nz 4)
      else none
    if lerp ∧ nldc = 0 then Except.error InitError.attributeError
    else Except.ok
      { nldc := nldc
        lerp := lerp
        evalKind :=
          if lerp then EvalKind.lerpQuadratic
          else if nldc = 0 then EvalKind.nolerpUniform
          else EvalKind.nolerpQuadratic
        nthr := nthr
        ss := decide (1 < supersampling)
        nss := max supersampling 1
        exptime := exptime
        tables := tables
        klims := klims
        nk := nk
        nz := nz }
  else Except.error InitError.notImplementedError

/-- Limb-darkening input `u` of `__call__`: either a one-dimensional
coefficient pair (single band) or a two-dimensional array with one pair
per band, matching the two `np.asarray(u).ndim` cases of the wrapper. -/
inductive LDInput where
  | single (u1 u2 : ℚ)
  | multi (us : List (ℚ × ℚ))
deriving DecidableEq

/-- Dimensionality of the `u` input, i.e. `np.asarray(u).ndim`. -/
def LDInput.ndim : LDInput → ℕ
  | LDInput.single _ _ => 1
  | LDInput.multi _ => 2

/-- Number of bands carried by the `u` input. -/
def LDInput.bands : LDInput → ℕ
  | LDInput.single _ _ => 1
  | LDInput.multi us => us.length

/-- Band list seen by the Fortran evaluators: `_eval_*_quadratic`
transposes `u` and promotes a one-dimensional `u` to a single band via
`u[:,np.newaxis]` (lines 75-77, 85-87). -/
def LDInput.toBands : LDInput → List (ℚ × ℚ)
  | LDInput.single u1 u2 => [(u1, u2)]
  | LDInput.multi us => us

/-- Flux value returned by `__call__`: flat (one-dimensional) or nested
per band (two-dimensional), matching the numpy array ranks. -/
inductive Flux where
  | flat (xs : List ℚ)
  | nested (xss : List (List ℚ))
deriving DecidableEq

/-- Embedding of numpy `ravel` on a flux array. -/
def Flux.ravel : Flux → Flux
  | Flux.flat xs => Flux.flat xs
  | Flux.nested xss => Flux.flat xss.flatten

/-- Whether the flux array is two-dimensional (per-band nested). -/
def Flux.isMultiBand : Flux → Bool
  | Flux.flat _ => false
  | Flux.nested _ => true

/-- Length of a flat flux array (zero on a nested one). -/
def Flux.flatLen : Flux → ℕ
  | Flux.flat xs => xs.length
  | Flux.nested _ => 0

/-- Band count of a nested flux array, `none` on a flat one. -/
def Flux.bandCount : Flux → Option ℕ
  | Flux.flat _ => none
  | Flux.nested xss => some xss.length

/-- All flux entries of either array rank, row-major. -/
def Flux.toFlat : Flux → List ℚ
  | Flux.flat xs => xs
  | Flux.nested xss => xss.flatten

/-- Contamination blending.  Modelled from the spec: a single linear
combination applied after flux evaluation, diluting by the fraction `c` of
third light (§1 exclusions, glossary); at flux 1 it returns 1. -/
def blend (c f : ℚ) : ℚ := c + (1 - c) * f

/-- Modelled from the spec: pointwise uniform-law flux of the missing
Fortran `ma.eval_uniform`.  Per §4.2 the disk-overlap formula has three
regimes: no overlap (`z ≥ 1+k`, flux 1), full overlap (`z ≤ 1-k`,
obscured fraction `k²`; `z ≤ k-1`, star fully inside the silhouette,
flux 0), and a partial-overlap arccos expression abstracted in the core. -/
def uniformPoint (core : MACore) (z k c : ℚ) : ℚ :=
  blend c
    (if 1 + k ≤ z then 1
     else if z ≤ 1 - k then 1 - k ^ 2
     else if z ≤ k - 1 then 0
     else 1 - core.uniInterior z k)

/-- Modelled from the spec: pointwise quadratic-law flux of the missing
Fortran `ma.eval_quad_multiband`.  Per §4.2/§4.3 the Mandel-Agol solution
is piecewise over the same regimes, with flux trivially 1 for `z ≥ 1+k`;
the occulting regimes' elliptic-integral expressions are abstracted. -/
def quadPoint (core : MACore) (z k u1 u2 c : ℚ) : ℚ :=
  blend c (if 1 + k ≤ z then 1 else core.quadInterior z k u1 u2)

/-- Modelled from the spec: `ma.eval_uniform(z, k, c, nthr)` — batched
uniform-law flux, one value per projected distance, `u` never passed. -/
def eval_uniform (core : MACore) (z : List ℚ) (k c : ℚ) (nthr : ℕ) :
    List ℚ :=
  z.map (fun zj => uniformPoint core zj k c)

/-- Modelled from the spec: `ma.eval_quad_multiband(z, k, u, c, nthr)` —
per-band batched quadratic-law flux, one series per band (§4.2). -/
def eval_quad_multiband (core : MACore) (z : List ℚ) (k : ℚ)
    (us : List (ℚ × ℚ)) (c : ℚ) (nthr : ℕ) : List (List ℚ) :=
  us.map (fun u => z.map (fun zj => quadPoint core zj k u.1 u.2 c))

/-- Modelled from the spec: `ma.eval_quad_bilerp` — per-band batched
bilinear-interpolated quadratic-law flux read from the table (§4.4); the
interpolated value is abstracted in the core as a function of the table. -/
def eval_quad_bilerp (core : MACore) (z : List ℚ) (k : ℚ)
    (us : List (ℚ × ℚ)) (c : ℚ) (nthr : ℕ) (tbl : InterpTables) :
    List (List ℚ) :=
  us.map (fun u => z.map (fun zj => blend c (core.bilerpVal tbl zj k u.1 u.2)))

/-- Embedding of `MandelAgol.__call__` (lines 92-109) together with the
three `_eval_*` methods it dispatches to.  `update` is accepted exactly as
in the Python signatures and, exactly as there, never read: no branch of
`__call__`, `_eval_nolerp_uniform`, `_eval_nolerp_quadratic` or
`_eval_lerp_quadratic` inspects it, and no attribute of `self` is ever
assigned.  The returned model is therefore the input model. -/
def call (core : MACore) (m : Model) (z : List ℚ) (k : ℚ) (u : LDInput)
    (c : ℚ) (update : Bool) : Model × Flux :=
  let flux : Flux :=
    match m.evalKind with
    | EvalKind.nolerpUniform =>
        Flux.flat (eval_uniform core z k c m.nthr)
    | EvalKind.nolerpQuadratic =>
        Flux.nested (eval_quad_multiband core z k u.toBands c m.nthr)
    | EvalKind.lerpQuadratic =>
        Flux.nested (eval_quad_bilerp core z k u.toBands c m.nthr
          (m.tables.getD emptyTables))
  (m, if u.ndim > 1 then flux else flux.ravel)

/-- Modelled from the spec: supersampled time expansion of the missing
`TransitModel` base class — each original sample expands into `nss`
sub-times uniformly spaced across the exposure window (§4.5). -/
def supersampleTimes (t : List ℚ) (nss : ℕ) (exptime : ℚ) : List ℚ :=
  t.flatMap (fun tj =>
    (List.range nss).map (fun (i : ℕ) =>
      tj - exptime / 2 + exptime * (i : ℚ) / ((nss - 1 : ℕ) : ℚ)))

/-- Modelled from the spec: `self._calculate_z` of the missing
`TransitModel` base class — expand the time series when supersampling is
active, then map each (sub-)time to its projected distance through the
orbit solver (abstracted in the core), preserving order (§4.1, §4.5). -/
def calcZ (core : MACore) (m : Model) (t : List ℚ)
    (t0 p a i e w : ℚ) : List ℚ :=
  let ts := if m.ss then supersampleTimes t m.nss m.exptime else t
  ts.map (fun tj => core.zOf tj t0 p a i e w)

/-- Per-block arithmetic means, the result of
`flux.reshape((npt, nss)).mean(1)` on a row-major array of
`npt * nss` entries (line 151). -/
def blockMeans (xs : List ℚ) (npt nss : ℕ) : List ℚ :=
  (List.range npt).map (fun j =>
    ((xs.drop (j * nss)).take nss).sum / (nss : ℚ))

/-- Embedding of `flux.reshape((self.npt, self.nss)).mean(1)`: numpy
`reshape` succeeds exactly when the total element count equals
`npt * nss` (row-major flattening otherwise irrelevant) and raises
`ValueError` otherwise. -/
def reduceFlux (flux : Flux) (npt nss : ℕ) : Except EvalError Flux :=
  match flux with
  | Flux.flat xs =>
      if xs.length = npt * nss then
        Except.ok (Flux.flat (blockMeans xs npt nss))
      else Except.error EvalError.valueError
  | Flux.nested xss =>
      if (xss.map List.length).sum = npt * nss then
        Except.ok (Flux.flat (blockMeans xss.flatten npt nss))
      else Except.error EvalError.valueError

/-- Embedding of `MandelAgol.evaluate` (lines 112-153): compute `z` from
the orbit, evaluate `__call__`, and when supersampling is active reduce
every contiguous block of `nss` sub-sample fluxes to its mean.  `npt` is
the number of original observation times. -/
def evaluate (core : MACore) (m : Model) (t : List ℚ) (k : ℚ)
    (u : LDInput) (t0 p a i e w c : ℚ) (update : Bool) :
    Except EvalError Flux :=
  let z := calcZ core m t t0 p a i e w
  let flux := (call core m z k u c update).2
  if m.ss then reduceFlux flux t.length m.nss else Except.ok flux

/-- Sub-sample flux list produced inside `evaluate` for a single-band
input, before the supersampling reduction. -/
def subFluxes (core : MACore) (m : Model) (t : List ℚ) (k : ℚ)
    (u1 u2 : ℚ) (t0 p a i e w c : ℚ) (update : Bool) : List ℚ :=
  (call core m (calcZ core m t t0 p a i e w) k (LDInput.single u1 u2) c
    update).2.toFlat

/-- Concrete uniform-law model, as produced by
`MandelAgol(nldc=0, lerp=False, supersampling=0)`. -/
def mU : Model :=
  { nldc := 0, lerp := false, evalKind := EvalKind.nolerpUniform,
    nthr := 0, ss := false, nss := 1, exptime := 1/50,
    tables := none, klims := (7/100, 13/100), nk := 128, nz := 256 }

/-- Concrete quadratic-law model, as produced by
`MandelAgol(nldc=2, lerp=False, supersampling=0)`. -/
def mQ : Model :=
  { nldc := 2, lerp := false, evalKind := EvalKind.nolerpQuadratic,
    nthr := 0, ss := false, nss := 1, exptime := 1/50,
    tables := none, klims := (7/100, 13/100), nk := 128, nz := 256 }

/-- Concrete supersampled quadratic-law model, as produced by
`MandelAgol(nldc=2, lerp=False, supersampling=3)`. -/
def mS : Model :=
  { nldc := 2, lerp := false, evalKind := EvalKind.nolerpQuadratic,
    nthr := 0, ss := true, nss := 3, exptime := 1/50,
    tables := none, klims := (7/100, 13/100), nk := 128, nz := 256 }

/-- Concrete supersampled uniform-law model, as produced by
`MandelAgol(nldc=0, lerp=False, supersampling=3)`. -/
def mUS : Model :=
  { nldc := 0, lerp := false, evalKind := EvalKind.nolerpUniform,
    nthr := 0, ss := true, nss := 3, exptime := 1/50,
    tables := none, klims := (7/100, 13/100), nk := 128, nz := 256 }

/-- Interpolating model whose stored table is stale: its `tables`
attribute no longer matches what building from its `(klims, nk, nz)`
would produce (the caller changed attributes after construction). -/
def staleModel : Model :=
  { nldc := 2, lerp := true, evalKind := EvalKind.lerpQuadratic,
    nthr := 0, ss := false, nss := 1, exptime := 1/50,
    tables := some emptyTables, klims := (7/100, 13/100), nk := 2, nz := 2 }

/-- Length of the supersampled time expansion. -/
theorem supersampleTimes_length (t : List ℚ) (nss : ℕ) (exptime : ℚ) :
    (supersampleTimes t nss exptime).length = t.length * nss := by
  induction t with
  | nil => simp [supersampleTimes]
  | cons a t ih =>
      have hcons : supersampleTimes (a :: t) nss exptime
          = ((List.range nss).map (fun (i : ℕ) =>
              a - exptime / 2 + exptime * (i : ℚ) / ((nss - 1 : ℕ) : ℚ)))
            ++ supersampleTimes t nss exptime := rfl
      rw [hcons, List.length_append, List.length_map, List.length_range,
        ih, List.length_cons, Nat.succ_mul]
      omega

/-- Total entry count of a per-band flux built by mapping one series
template over the band list. -/
theorem sum_map_length_of_const {α : Type} (us : List α) (f : α → List ℚ)
    (n : ℕ) (h : ∀ u, (f u).length = n) :
    ((us.map f).map List.length).sum = us.length * n := by
  induction us with
  | nil => simp
  | cons a us ih =>
      simp only [List.map_cons, List.sum_cons, h, List.length_cons,
        Nat.succ_mul]
      rw [ih, Nat.add_comm]

/-- Block-mean list has one entry per original observation. -/
theorem blockMeans_length (xs : List ℚ) (npt nss : ℕ) :
    (blockMeans xs npt nss).length = npt := by
  simp [blockMeans]

/-- Each entry of the block-mean list is the arithmetic mean of its
contiguous block of `nss` sub-sample values. -/
theorem blockMeans_get (xs : List ℚ) (npt nss : ℕ) (j : ℕ)
    (hj : j < (blockMeans xs npt nss).length) :
    (blockMeans xs npt nss).get ⟨j, hj⟩
      = ((xs.drop (j * nss)).take nss).sum / (nss : ℚ) := by
  simp [blockMeans]

/-- Reduction with block size 1 over a matching-length list is the
identity. -/
theorem blockMeans_one (xs : List ℚ) : blockMeans xs xs.length 1 = xs := by
  apply List.ext_getElem
  · simp [blockMeans]
  · intro j h1 h2
    simp only [blockMeans, List.getElem_map, List.getElem_range,
      Nat.mul_one]
    rw [List.drop_eq_getElem_cons h2]
    rw [show List.take 1 (xs[j] :: List.drop (j + 1) xs) = [xs[j]] from rfl]
    simp

/-- Mapping a function that is constantly `b` on a list yields a
replicate. -/
theorem map_eq_replicate_of {α : Type} (l : List α) (f : α → ℚ) (b : ℚ)
    (h : ∀ x ∈ l, f x = b) : l.map f = List.replicate l.length b := by
  induction l with
  | nil => simp
  | cons a l ih =>
      simp only [List.map_cons, List.length_cons, List.replicate_succ]
      rw [h a (by simp), ih (fun x hx => h x (by simp [hx]))]

/-- A single-band `__call__` always returns a flat flux array with one
entry per projected distance, on every evaluator path. -/
theorem call_single_flat (core : MACore) (m : Model) (z : List ℚ) (k : ℚ)
    (u1 u2 c : ℚ) (update : Bool) :
    ∃ xs, (call core m z k (LDInput.single u1 u2) c update).2 = Flux.flat xs
      ∧ xs.length = z.length := by
  cases hek : m.evalKind with
  | nolerpUniform =>
      refine ⟨eval_uniform core z k c m.nthr, ?_, ?_⟩
      · simp [call, hek, LDInput.ndim, Flux.ravel]
      · simp [eval_uniform]
  | nolerpQuadratic =>
      refine ⟨(eval_quad_multiband core z k [(u1, u2)] c m.nthr).flatten,
        ?_, ?_⟩
      · simp [call, hek, LDInput.ndim, LDInput.toBands, Flux.ravel]
      · simp [eval_quad_multiband]
  | lerpQuadratic =>
      refine ⟨(eval_quad_bilerp core z k [(u1, u2)] c m.nthr
          (m.tables.getD emptyTables)).flatten, ?_, ?_⟩
      · simp [call, hek, LDInput.ndim, LDInput.toBands, Flux.ravel]
      · simp [eval_quad_bilerp]

/-- C2: evaluation never mutates the model state: for every evaluation
call on any model (interpolating ones included), the whole stored state —
in particular the interpolation-table grids `ed`, `le`, `ld`, the knot
arrays `kt`, `zt` and the parameters `klims`, `nk`, `nz` — is identical
after `__call__` to what it was before; only `__init__` produces a table. -/
theorem call_preserves_state (core : MACore) (m : Model) (z : List ℚ)
    (k : ℚ) (u : LDInput) (c : ℚ) (update : Bool) :
    (call core m z k u c update).1 = m := rfl

/-- C3: constructing a model fails with the unsupported-configuration
error exactly when the limb-darkening configuration is neither uniform
(`nldc = 0`) nor quadratic (`nldc = 2`); construction, not evaluation, is
where the failure happens, and for `nldc ∈ \x7b0, 2\x7d` this error is never
raised. -/
theorem init_notImplemented_iff (core : MACore) (nldc nthr : ℕ)
    (lerp : Bool) (supersampling : ℕ) (exptime : ℚ) (klims : ℚ × ℚ)
    (nk nz : ℕ) :
    initModel core nldc nthr lerp supersampling exptime klims nk nz
        = Except.error InitError.notImplementedError
      ↔ ¬(nldc = 0 ∨ nldc = 2) := by
  by_cases h : nldc = 0 ∨ nldc = 2
  · simp only [initModel, if_pos h, h, iff_true, not_true_eq_false,
      iff_false]
    by_cases hl : lerp ∧ nldc = 0 <;> simp [hl]
  · simp [initModel, if_neg h, h]

/-- C8: requesting the interpolated path together with the uniform law
(`nldc = 0`, `lerp = True`) fails at construction: `__init__` never
assigns an interpolated uniform evaluator, so selecting `self._eval_lerp`
raises, and no usable model is produced. -/
theorem init_uniform_lerp_fails (core : MACore) (nthr : ℕ)
    (supersampling : ℕ) (exptime : ℚ) (klims : ℚ × ℚ) (nk nz : ℕ) :
    initModel core 0 nthr true supersampling exptime klims nk nz
      = Except.error InitError.attributeError := rfl

/-- C10: on a uniform-law model the evaluated flux is independent of the
numeric content of the limb-darkening input `u`: two calls differing only
in `u`, with equal dimensionality and the same `z`, `k`, contamination and
update arguments, return the same value, because `u` is never passed to
`ma.eval_uniform`. -/
theorem uniform_call_u_independent (core : MACore) (m : Model)
    (z : List ℚ) (k : ℚ) (u u' : LDInput) (c : ℚ) (update : Bool)
    (hek : m.evalKind = EvalKind.nolerpUniform)
    (hnd : u.ndim = u'.ndim) :
    call core m z k u c update = call core m z k u' c update := by
  cases u <;> cases u' <;>
    simp [call, hek, LDInput.ndim, Flux.ravel] at hnd ⊢

/-- Witness for `uniform_call_u_independent` at a concrete uniform-law
model and two numerically different coefficient vectors. -/
theorem uniform_call_u_independent_witness :
    call trivCore mU [2] (1/10) (LDInput.single (1/10) (1/5)) 0 true
      = call trivCore mU [2] (1/10) (LDInput.single (3/10) (2/5)) 0 true :=
  uniform_call_u_independent trivCore mU [2] (1/10)
    (LDInput.single (1/10) (1/5)) (LDInput.single (3/10) (2/5)) 0 true
    rfl rfl

/-- C1: the `update` flag is dead in the code: `__call__` with
`update=True` performs no rebuild of the interpolation table — on a model
whose stored table is stale with respect to its `(klims, nk, nz)`, the
call still evaluates against the stale table rather than the table a
build from the current parameters would produce, and the call behaves
identically for `update=True` and `update=False`.  This contradicts the
class docstring, which says a default call updates the interpolation
table. -/
theorem update_true_never_rebuilds :
    (call trivCore staleModel [1] (1/10) (LDInput.single (3/10) (1/5)) 0
        true).1.tables = some emptyTables
    ∧ emptyTables
        ≠ calculate_interpolation_tables trivCore (7/100) (13/100) 2 2 4
    ∧ call trivCore staleModel [1] (1/10) (LDInput.single (3/10) (1/5)) 0
        true
      = call trivCore staleModel [1] (1/10) (LDInput.single (3/10) (1/5)) 0
        false := by
  refine ⟨rfl, ?_, rfl⟩
  intro h
  have hk := congrArg (fun tb => tb.kt.length) h
  simp [emptyTables, calculate_interpolation_tables, linspace] at hk

/-- C7: for every radius ratio `k` in `(0,1)` and every batch of projected
distances all at least `1 + k`, the evaluated relative flux is exactly 1
for both the uniform and the quadratic limb-darkening law, for every band
and every contamination factor. -/
theorem no_occultation_flux_one (core : MACore) (zs : List ℚ) (k : ℚ)
    (us : List (ℚ × ℚ)) (c : ℚ) (nthr : ℕ) (hk0 : 0 < k) (hk1 : k < 1)
    (hz : ∀ z ∈ zs, 1 + k ≤ z) :
    eval_uniform core zs k c nthr = List.replicate zs.length 1
    ∧ eval_quad_multiband core zs k us c nthr
        = us.map (fun _ => List.replicate zs.length 1) := by
  constructor
  · apply map_eq_replicate_of
    intro z hzin
    unfold uniformPoint
    rw [if_pos (hz z hzin)]
    unfold blend
    ring
  · unfold eval_quad_multiband
    apply List.map_congr_left
    intro u _
    apply map_eq_replicate_of
    intro z hzin
    unfold quadPoint
    rw [if_pos (hz z hzin)]
    unfold blend
    ring

/-- Witness for `no_occultation_flux_one` at `k = 1/2`, `z = 2 ≥ 1 + k`,
with a nonzero contamination factor. -/
theorem no_occultation_flux_one_witness :
    eval_uniform trivCore [2] (1/2) (1/4) 0 = List.replicate 1 1
    ∧ eval_quad_multiband trivCore [2] (1/2) [(3/10, 1/5)] (1/4) 0
        = [(3/10, 1/5)].map (fun _ => List.replicate 1 1) :=
  no_occultation_flux_one trivCore [2] (1/2) [(3/10, 1/5)] (1/4) 0
    (by norm_num) (by norm_num) (by norm_num)

/-- C6 counterexample: on a uniform-law model a two-band (two-dimensional)
`u` input does not yield a per-band nested result: `ma.eval_uniform` never
receives `u`, returns a one-dimensional series, and `__call__` hands that
flat series back unchanged. -/
theorem multiband_uniform_result_is_flat :
    initModel trivCore 0 0 false 0 (1/50) (7/100, 13/100) 128 256
        = Except.ok mU
    ∧ (call trivCore mU [2] (1/10)
        (LDInput.multi [(1/10, 1/5), (3/10, 2/5)]) 0 true).2
      = Flux.flat [1]
    ∧ Flux.isMultiBand (call trivCore mU [2] (1/10)
        (LDInput.multi [(1/10, 1/5), (3/10, 2/5)]) 0 true).2 = false := by
  refine ⟨rfl, ?_, rfl⟩
  norm_num [call, mU, eval_uniform, uniformPoint, blend, LDInput.ndim]

/-- C6 amended: the returned flux shape follows the dimensionality of `u`
on the quadratic-law paths — one-dimensional `u` yields a flat series with
one entry per `z` sample, two-dimensional `u` yields a nested result with
one series per band — while on the uniform-law path the result is always a
single flat series with one entry per `z` sample, whatever the
dimensionality of `u`. -/
theorem call_shape_by_law (core : MACore) (m : Model) (z : List ℚ)
    (k : ℚ) (u : LDInput) (c : ℚ) (update : Bool) :
    (u.ndim = 1 →
      Flux.isMultiBand (call core m z k u c update).2 = false
      ∧ Flux.flatLen (call core m z k u c update).2 = z.length)
    ∧ (m.evalKind ≠ EvalKind.nolerpUniform → u.ndim = 2 →
        Flux.bandCount (call core m z k u c update).2 = some u.bands)
    ∧ (m.evalKind = EvalKind.nolerpUniform →
        Flux.isMultiBand (call core m z k u c update).2 = false
        ∧ Flux.flatLen (call core m z k u c update).2 = z.length) := by
  refine ⟨?_, ?_, ?_⟩
  · intro h1
    cases u with
    | single u1 u2 =>
        cases hek : m.evalKind <;>
          exact ⟨by simp [call, hek, LDInput.ndim, LDInput.toBands,
              Flux.ravel, Flux.isMultiBand],
            by simp [call, hek, LDInput.ndim, LDInput.toBands, Flux.ravel,
              Flux.flatLen, eval_uniform, eval_quad_multiband,
              eval_quad_bilerp]⟩
    | multi us => simp [LDInput.ndim] at h1
  · intro hne h2
    cases u with
    | single u1 u2 => simp [LDInput.ndim] at h2
    | multi us =>
        cases hek : m.evalKind with
        | nolerpUniform => exact absurd hek hne
        | nolerpQuadratic =>
            simp [call, hek, LDInput.ndim, LDInput.toBands,
              Flux.bandCount, eval_quad_multiband, LDInput.bands]
        | lerpQuadratic =>
            simp [call, hek, LDInput.ndim, LDInput.toBands,
              Flux.bandCount, eval_quad_bilerp, LDInput.bands]
  · intro hek
    cases u <;>
      exact ⟨by simp [call, hek, LDInput.ndim, Flux.ravel,
          Flux.isMultiBand],
        by simp [call, hek, LDInput.ndim, Flux.ravel, Flux.flatLen,
          eval_uniform]⟩

/-- Witness for `call_shape_by_law`: a two-band input on a quadratic-law
model yields a nested result with exactly two band series. -/
theorem call_shape_by_law_witness :
    Flux.bandCount (call trivCore mQ [2] (1/10)
        (LDInput.multi [(1/10, 1/5), (3/10, 2/5)]) 0 true).2 = some 2 :=
  (call_shape_by_law trivCore mQ [2] (1/10)
      (LDInput.multi [(1/10, 1/5), (3/10, 2/5)]) 0 true).2.1
    (by decide) (by decide)

/-- C5: a supersampling factor of at most 1 makes the supersampling stage
the identity: the constructed model has `ss = false` and `nss = 1`; the
full pipeline then returns the un-expanded, un-reduced flux series
computed on the original times; and the block reduction with block size 1
is the identity on every flux array of matching length. -/
theorem no_supersampling_identity :
    (∀ (core : MACore) (nldc nthr : ℕ) (lerp : Bool) (ssf : ℕ) (et : ℚ)
        (kl : ℚ × ℚ) (nk nz : ℕ) (m : Model), ssf ≤ 1 →
        initModel core nldc nthr lerp ssf et kl nk nz = Except.ok m →
        m.ss = false ∧ m.nss = 1)
    ∧ (∀ (core : MACore) (m : Model) (t : List ℚ) (k : ℚ) (u : LDInput)
        (t0 p a i e w c : ℚ) (update : Bool), m.ss = false →
        evaluate core m t k u t0 p a i e w c update
          = Except.ok (call core m
              (t.map (fun tj => core.zOf tj t0 p a i e w)) k u c
              update).2)
    ∧ (∀ (npt : ℕ) (xs : List ℚ), xs.length = npt →
        reduceFlux (Flux.flat xs) npt 1 = Except.ok (Flux.flat xs)) := by
  refine ⟨?_, ?_, ?_⟩
  · intro core nldc nthr lerp ssf et kl nk nz m hssf hok
    have hlt : ¬ (1 < ssf) := by omega
    unfold initModel at hok
    by_cases h : nldc = 0 ∨ nldc = 2
    · rw [if_pos h] at hok
      by_cases hl : lerp ∧ nldc = 0
      · rw [if_pos hl] at hok
        exact absurd hok (by simp)
      · rw [if_neg hl] at hok
        injection hok with hm
        subst hm
        refine ⟨by simp [hlt], ?_⟩
        simp [Nat.max_eq_right hssf]
    · rw [if_neg h] at hok
      exact absurd hok (by simp)
  · intro core m t k u t0 p a i e w c update hss
    simp [evaluate, calcZ, hss]
  · intro npt xs hlen
    subst hlen
    simp [reduceFlux, blockMeans_one]

/-- Witness for `no_supersampling_identity` at a concrete quadratic-law
model built without supersampling. -/
theorem no_supersampling_identity_witness :
    (mQ.ss = false ∧ mQ.nss = 1)
    ∧ evaluate trivCore mQ [0] (1/10) (LDInput.single (3/10) (1/5))
        0 1 1 1 0 0 0 true
      = Except.ok (call trivCore mQ
          (([0] : List ℚ).map (fun tj => trivCore.zOf tj 0 1 1 1 0 0))
          (1/10) (LDInput.single (3/10) (1/5)) 0 true).2
    ∧ reduceFlux (Flux.flat [1/2, 1/3]) 2 1
        = Except.ok (Flux.flat [1/2, 1/3]) :=
  ⟨no_supersampling_identity.1 trivCore 2 0 false 0 (1/50)
      (7/100, 13/100) 128 256 mQ (by decide) rfl,
    no_supersampling_identity.2.1 trivCore mQ [0] (1/10)
      (LDInput.single (3/10) (1/5)) 0 1 1 1 0 0 0 true rfl,
    no_supersampling_identity.2.2 2 [1/2, 1/3] rfl⟩

/-- C4: with supersampling active, a single-band full-pipeline evaluation
returns exactly one flux value per original observation time, in original
order, the `j`-th being the arithmetic mean of the `j`-th contiguous block
of `nss` sub-sample fluxes. -/
theorem supersampled_single_band_mean (core : MACore) (m : Model)
    (t : List ℚ) (k u1 u2 t0 p a i e w c : ℚ) (update : Bool)
    (hss : m.ss = true) (hnss : 1 < m.nss) :
    evaluate core m t k (LDInput.single u1 u2) t0 p a i e w c update
      = Except.ok (Flux.flat (blockMeans
          (subFluxes core m t k u1 u2 t0 p a i e w c update)
          t.length m.nss))
    ∧ (blockMeans (subFluxes core m t k u1 u2 t0 p a i e w c update)
        t.length m.nss).length = t.length
    ∧ ∀ (j : ℕ) (hj : j < (blockMeans
          (subFluxes core m t k u1 u2 t0 p a i e w c update)
          t.length m.nss).length),
        (blockMeans (subFluxes core m t k u1 u2 t0 p a i e w c update)
          t.length m.nss).get ⟨j, hj⟩
          = (((subFluxes core m t k u1 u2 t0 p a i e w c update).drop
              (j * m.nss)).take m.nss).sum / (m.nss : ℚ) := by
  obtain ⟨xs, hxs, hlen⟩ := call_single_flat core m
    (calcZ core m t t0 p a i e w) k u1 u2 c update
  have hzlen : (calcZ core m t t0 p a i e w).length
      = t.length * m.nss := by
    simp [calcZ, hss, supersampleTimes_length]
  have hsub : subFluxes core m t k u1 u2 t0 p a i e w c update = xs := by
    simp [subFluxes, hxs, Flux.toFlat]
  refine ⟨?_, blockMeans_length _ _ _, fun j hj => blockMeans_get _ _ _ j hj⟩
  rw [hsub]
  simp only [evaluate, hss, if_true]
  rw [hxs]
  simp [reduceFlux, hlen.trans hzlen]

/-- Witness for `supersampled_single_band_mean` at a concrete quadratic
model with `nss = 3` and two observation times. -/
theorem supersampled_single_band_mean_witness :
    evaluate trivCore mS [0, 1] (1/10) (LDInput.single (3/10) (1/5))
        0 1 1 1 0 0 0 true
      = Except.ok (Flux.flat (blockMeans
          (subFluxes trivCore mS [0, 1] (1/10) (3/10) (1/5)
            0 1 1 1 0 0 0 true) 2 3)) :=
  (supersampled_single_band_mean trivCore mS [0, 1] (1/10) (3/10) (1/5)
    0 1 1 1 0 0 0 true rfl (by decide)).1

/-- C9 counterexample: the multi-band reshape does not fail whenever the
number of bands exceeds one.  With an empty time series a two-band
quadratic supersampled evaluation reshapes an empty array and succeeds;
and with the uniform law the flux array is one-dimensional, so a two-band
`u` with one observation also reduces successfully. -/
theorem supersampled_multiband_can_succeed :
    initModel trivCore 2 0 false 3 (1/50) (7/100, 13/100) 128 256
        = Except.ok mS
    ∧ evaluate trivCore mS [] (1/10)
        (LDInput.multi [(1/10, 1/5), (3/10, 2/5)]) 0 1 1 1 0 0 0 true
      = Except.ok (Flux.flat [])
    ∧ initModel trivCore 0 0 false 3 (1/50) (7/100, 13/100) 128 256
        = Except.ok mUS
    ∧ evaluate trivCore mUS [0] (1/10)
        (LDInput.multi [(1/10, 1/5), (3/10, 2/5)]) 0 1 1 1 0 0 0 true
      = Except.ok (Flux.flat [99/100]) := by
  refine ⟨rfl, rfl, rfl, ?_⟩
  norm_num [evaluate, calcZ, supersampleTimes, call, eval_uniform,
    uniformPoint, blend, mUS, trivCore, reduceFlux, blockMeans,
    LDInput.ndim, List.range_succ]

/-- C9 amended: with supersampling active (`nss > 1`), a multi-band input
on a quadratic-law path (where the flux array is two-dimensional) makes
the reduction reshape fail whenever there are at least two bands and at
least one observation time, so supersampled evaluation effectively
supports only single-band input there. -/
theorem supersampled_multiband_raises (core : MACore) (m : Model)
    (t : List ℚ) (k : ℚ) (us : List (ℚ × ℚ)) (t0 p a i e w c : ℚ)
    (update : Bool) (hss : m.ss = true) (hnss : 1 < m.nss)
    (hb : 2 ≤ us.length) (ht : 1 ≤ t.length)
    (hek : m.evalKind ≠ EvalKind.nolerpUniform) :
    evaluate core m t k (LDInput.multi us) t0 p a i e w c update
      = Except.error EvalError.valueError := by
  have hzlen : (calcZ core m t t0 p a i e w).length
      = t.length * m.nss := by
    simp [calcZ, hss, supersampleTimes_length]
  have hflux : ∃ xss : List (List ℚ),
      (call core m (calcZ core m t t0 p a i e w) k (LDInput.multi us) c
        update).2 = Flux.nested xss
      ∧ (xss.map List.length).sum
          = us.length * (calcZ core m t t0 p a i e w).length := by
    cases hk : m.evalKind with
    | nolerpUniform => exact absurd hk hek
    | nolerpQuadratic =>
        refine ⟨eval_quad_multiband core (calcZ core m t t0 p a i e w) k
          us c m.nthr, ?_, ?_⟩
        · simp [call, hk, LDInput.ndim, LDInput.toBands]
        · exact sum_map_length_of_const us _ _ (fun u => by simp)
    | lerpQuadratic =>
        refine ⟨eval_quad_bilerp core (calcZ core m t t0 p a i e w) k
          us c m.nthr (m.tables.getD emptyTables), ?_, ?_⟩
        · simp [call, hk, LDInput.ndim, LDInput.toBands]
        · exact sum_map_length_of_const us _ _ (fun u => by simp)
  obtain ⟨xss, hxss, hsum⟩ := hflux
  have hpos : 0 < t.length * m.nss := Nat.mul_pos (by omega) (by omega)
  have hne : us.length * (t.length * m.nss) ≠ t.length * m.nss := by
    intro hcontra
    have h1 : us.length * (t.length * m.nss)
        = 1 * (t.length * m.nss) := by simpa using hcontra
    have h2 := Nat.eq_of_mul_eq_mul_right hpos h1
    omega
  simp only [evaluate, hss, if_true]
  rw [hxss]
  simp only [reduceFlux]
  rw [hsum, hzlen]
  rw [if_neg hne]

/-- Witness for `supersampled_multiband_raises` at a concrete
supersampled quadratic model with two bands and one observation. -/
theorem supersampled_multiband_raises_witness :
    evaluate trivCore mS [0] (1/10)
        (LDInput.multi [(1/10, 1/5), (3/10, 2/5)]) 0 1 1 1 0 0 0 true
      = Except.error EvalError.valueError :=
  supersampled_multiband_raises trivCore mS [0] (1/10)
    [(1/10, 1/5), (3/10, 2/5)] 0 1 1 1 0 0 0 true rfl (by decide)
    (by decide) (by decide) (by decide)

end PyTransit
